import Mathlib

/-!
Shallow embedding of the CarbonFramework-Bench measurement and analysis
pipeline, translated from `scripts/test_carbon_comprehensive.py` and
`scripts/analyze_results.py`.

Modelling conventions:
* Python floats are modelled as rationals (`ℚ`); the built-in `round(x, d)`
  (round-half-to-even) is modelled exactly by `pyRound`.
* `scipy.stats` is an external collaborator: Welch's t-test appears as an
  oracle parameter, and a `none` oracle result models a NaN p-value
  (`math.isnan` branch).  `HAS_SCIPY` is a Boolean parameter.
* Python's `statistics.stdev` needs a real square root, so Cohen's d is
  carried as its square (`cohens_d_sq`); the effect-size thresholds are
  squared accordingly, which yields the identical classification.
* Decimal display formatting (`f"{x:.4f}"`) is abstracted by `toString`;
  it only ever feeds human-readable statement strings.
-/

namespace Carbon

/-- Python's built-in `round` to an integer: round-half-to-even on `ℚ`. -/
def rhe (q : ℚ) : ℤ :=
  if q - (⌊q⌋ : ℚ) < 1/2 then ⌊q⌋
  else if 1/2 < q - (⌊q⌋ : ℚ) then ⌊q⌋ + 1
  else if ⌊q⌋ % 2 = 0 then ⌊q⌋ else ⌊q⌋ + 1

/-- Python's `round(q, d)` for `d` decimal digits. -/
def pyRound (d : ℕ) (q : ℚ) : ℚ := (rhe (q * 10 ^ d) : ℚ) / 10 ^ d

/-- Python's `str.startswith`, on the character sequences of the strings. -/
def pyStartsWith (s pre : String) : Bool := pre.data.isPrefixOf s.data

/-- The statement `s` begins with the text `tag`. -/
def taggedWith (tag s : String) : Prop := ∃ rest, s = tag ++ rest

/-! ## Reliability classification
`RELIABILITY_THRESHOLDS` (test_carbon_comprehensive.py lines 40-44,
analyze_results.py lines 62-65). -/

structure ReliabilityThresholds where
  reliable : ℚ
  marginal : ℚ
deriving DecidableEq

def RELIABILITY_THRESHOLDS : ReliabilityThresholds := { reliable := 15.0, marginal := 5.0 }

/-- The duration-based reliability classification used verbatim both in
`extract_energy_metadata` (test_carbon_comprehensive.py lines 331-337) and in
the duration fallback of `_extract_reliability` (analyze_results.py lines
153-160). -/
def classifyReliability (test_duration : ℚ) : String :=
  if RELIABILITY_THRESHOLDS.reliable ≤ test_duration then "reliable"
  else if RELIABILITY_THRESHOLDS.marginal ≤ test_duration then "marginal"
  else "unreliable"

/-- `ALPHA = 0.05` (analyze_results.py line 59). -/
def ALPHA : ℚ := 0.05

/-! ## Load driver (`class LoadTester`) -/

/-- Outcome of `LoadTester.make_request`: HTTP 200 yields `success := true`
with the elapsed milliseconds; any other status or transport failure yields
`success := false`. -/
structure ReqResult where
  success : Bool
  time : ℚ
deriving DecidableEq

/-- The mutable `self.results` dictionary of `LoadTester`. -/
structure LoadResults where
  success : ℕ
  errors : ℕ
  response_times : List ℚ
deriving DecidableEq

def LoadResults.init : LoadResults := { success := 0, errors := 0, response_times := [] }

/-- The per-request bookkeeping shared by the loop bodies of
`run_sequential` (lines 78-84) and `run_concurrent` (lines 102-108). -/
def recordResult (st : LoadResults) (r : ReqResult) : LoadResults :=
  if r.success then
    { st with success := st.success + 1, response_times := st.response_times ++ [r.time] }
  else
    { st with errors := st.errors + 1 }

/-- `LoadTester.run_sequential`: processes the request outcomes in issue
order. -/
def run_sequential (outcomes : List ReqResult) (st : LoadResults) : LoadResults :=
  outcomes.foldl recordResult st

/-- `LoadTester.run_concurrent`: identical bookkeeping, but outcomes arrive
in `as_completed` order, an arbitrary permutation of the submitted futures. -/
def run_concurrent (completionOrder : List ReqResult) (st : LoadResults) : LoadResults :=
  completionOrder.foldl recordResult st

/-! ## Response-time statistics (`LoadTester.get_statistics`) -/

structure RTStats where
  min_ms : ℚ
  max_ms : ℚ
  mean_ms : ℚ
  median_ms : ℚ
  p95_ms : ℚ
  p99_ms : ℚ
deriving DecidableEq

/-- Python `min` of a nonempty list (unused default 0 on `[]`). -/
def lMin : List ℚ → ℚ
  | [] => 0
  | x :: xs => xs.foldl min x

/-- Python `max` of a nonempty list (unused default 0 on `[]`). -/
def lMax : List ℚ → ℚ
  | [] => 0
  | x :: xs => xs.foldl max x

/-- `statistics.mean`. -/
def lMean (l : List ℚ) : ℚ := l.sum / l.length

/-- `statistics.median`: middle element for odd length, mean of the two
middle elements for even length. -/
def pyMedian (l : List ℚ) : ℚ :=
  let s := List.insertionSort (· ≤ ·) l
  let n := s.length
  if n % 2 = 1 then s.getD (n / 2) 0
  else (s.getD (n / 2 - 1) 0 + s.getD (n / 2) 0) / 2

/-- `LoadTester.get_statistics` (lines 117-140): all-zero record for an empty
sample, otherwise rounded descriptive statistics with nearest-rank p95/p99
(`times_sorted[int(len(times_sorted) * 0.95)]`). -/
def get_statistics (response_times : List ℚ) : RTStats :=
  match response_times with
  | [] => { min_ms := 0, max_ms := 0, mean_ms := 0, median_ms := 0, p95_ms := 0, p99_ms := 0 }
  | times =>
    let times_sorted := List.insertionSort (· ≤ ·) times
    { min_ms := pyRound 2 (lMin times)
      max_ms := pyRound 2 (lMax times)
      mean_ms := pyRound 2 (lMean times)
      median_ms := pyRound 2 (pyMedian times)
      p95_ms := pyRound 2 (times_sorted.getD ⌊(times_sorted.length : ℚ) * 0.95⌋₊ 0)
      p99_ms := pyRound 2 (times_sorted.getD ⌊(times_sorted.length : ℚ) * 0.99⌋₊ 0) }

/-! ## Load dispatch in `run_test` (lines 431-436) -/

inductive LoadMode
  | sequential
  | concurrent (max_workers : ℕ)
deriving DecidableEq

/-- `run_test`: `if load_size <= 100: run_sequential() else:
run_concurrent(max_workers=min(100, load_size // 10))`. -/
def runTestDispatch (load_size : ℕ) : LoadMode :=
  if load_size ≤ 100 then LoadMode.sequential
  else LoadMode.concurrent (min 100 (load_size / 10))

/-! ## Orchestrator (`run_comparison_suite`, lines 721-794) -/

structure SuiteConfig where
  framework : String
  load : ℕ
  endpoint_name : String
  endpoint_path : String
deriving DecidableEq

/-- The configuration list built by the nested loops of
`run_comparison_suite` (lines 740-744): frameworks × loads × endpoints. -/
def buildConfigs (frameworks : List String) (loads : List ℕ)
    (endpoints : List (String × String)) : List SuiteConfig :=
  frameworks.flatMap fun framework =>
    loads.flatMap fun load =>
      endpoints.map fun ep =>
        { framework := framework, load := load, endpoint_name := ep.1, endpoint_path := ep.2 }

/-- The order of `run_test` invocations in `run_comparison_suite`
(lines 760-772): outer loop over `run_id in range(1, num_runs + 1)`, inner
loop over `configs`. -/
def comparisonSuiteOrder (configs : List SuiteConfig) (num_runs : ℕ) :
    List (SuiteConfig × ℕ) :=
  (List.range num_runs).flatMap fun r => configs.map fun c => (c, r + 1)

/-- Basename of the combined batch artifact written at the end of
`run_comparison_suite` (line 783): `comparison_suite_{timestamp}.json`. -/
def combinedFileBasename (timestamp : String) : String :=
  "comparison_suite_" ++ (timestamp ++ ".json")

/-- Two sample configurations (subjects A and B of the round-robin property). -/
def cfgA : SuiteConfig :=
  { framework := "fastapi", load := 100, endpoint_name := "light",
    endpoint_path := "/api/v1/weather/analytics/light" }

def cfgB : SuiteConfig :=
  { framework := "django", load := 100, endpoint_name := "light",
    endpoint_path := "/api/v1/weather/analytics/light" }

/-! ## Result loader (`load_test_results`, analyze_results.py lines 103-129) -/

/-- Parsing outcome for one JSON file: a single result object, an array of
result objects, or an unreadable file (the `except` branch, which only
prints a warning). -/
inductive FileData (α : Type)
  | single (r : α)
  | array (rs : List α)
  | unreadable (err : String)

/-- One file of the result directory, given by basename and parsed content. -/
structure ResultFile (α : Type) where
  basename : String
  data : FileData α

/-- `load_test_results`: scans the files in directory order, skips every
basename starting with `comparison_suite_`, extends by arrays and appends
single objects. -/
def load_test_results {α : Type} (files : List (ResultFile α)) : List α :=
  files.foldl
    (fun all_results f =>
      if pyStartsWith f.basename "comparison_suite_" then all_results
      else
        match f.data with
        | FileData.array rs => all_results ++ rs
        | FileData.single r => all_results ++ [r]
        | FileData.unreadable _ => all_results)
    []

/-! ## Reliability extraction (`_extract_reliability`, analyze_results.py
lines 136-162) -/

/-- The fields of a loaded result record inspected by
`_extract_reliability`.  `energy_metadata_reliability` stands for
`result.get("energy_metadata", {}).get("measurement_reliability")`. -/
structure AnalyzedRecord where
  measurement_reliability : Option String
  energy_metadata_reliability : Option String
  total_tracked_duration_seconds : Option ℚ
  duration_seconds : Option ℚ
deriving DecidableEq

/-- Python truthiness of an optional string (`if rel:`): absent and `""` are
falsy. -/
def pyTruthyStr : Option String → Option String
  | some s => if s = "" then none else some s
  | none => none

/-- Python `a or b` on optional floats (`0.0` is falsy). -/
def pyOrFloat : Option ℚ → Option ℚ → Option ℚ
  | some t, b => if t = 0 then b else some t
  | none, b => b

/-- `_extract_reliability`: explicit top-level field, then the nested
adapter field, then duration-based inference, else `"unknown"`. -/
def extract_reliability (r : AnalyzedRecord) : String :=
  match pyTruthyStr r.measurement_reliability with
  | some rel => rel
  | none =>
    match pyTruthyStr r.energy_metadata_reliability with
    | some rel => rel
    | none =>
      match pyOrFloat r.total_tracked_duration_seconds r.duration_seconds with
      | some dur =>
        if RELIABILITY_THRESHOLDS.reliable ≤ dur then "reliable"
        else if RELIABILITY_THRESHOLDS.marginal ≤ dur then "marginal"
        else "unreliable"
      | none => "unknown"

/-! ## Emissions adapter (`extract_energy_metadata`,
test_carbon_comprehensive.py lines 291-373) -/

/-- One CSV cell as seen by `csv.DictReader` (always a string in Python):
either parseable as a float or not. -/
inductive CsvCell
  | numC (q : ℚ)
  | strC (s : String)
deriving DecidableEq

/-- One CSV row: a column-name/cell association list. -/
abbrev CsvRow := List (String × CsvCell)

def rowGet (row : CsvRow) (key : String) : Option CsvCell :=
  (row.find? fun p => p.1 == key).map Prod.snd

/-- `float(row.get(key, 0))` inside the cpu-power scan: a missing key gives
`0.0`, an unparseable cell raises `ValueError` (modelled as `none`, skipped). -/
def cellFloat : Option CsvCell → Option ℚ
  | some (CsvCell.numC q) => some q
  | some (CsvCell.strC _) => none
  | none => some 0

/-- The `_float(key, default=0.0)` helper: parse failure or missing key
falls back to the default `0.0`. -/
def rowFloat (row : CsvRow) (key : String) : ℚ :=
  match rowGet row key with
  | some (CsvCell.numC q) => q
  | some (CsvCell.strC _) => 0
  | none => 0

/-- `last.get(key, default)` for descriptor columns, returned verbatim. -/
def rowStrD (row : CsvRow) (key : String) (default : String) : String :=
  match rowGet row key with
  | some (CsvCell.strC s) => s
  | some (CsvCell.numC q) => toString q
  | none => default

/-- Power measurement method detection (lines 316-329): all cpu-power values
identical means TDP-based, varying values mean hardware-measured, none
parseable means unknown. -/
def power_method_of (rows : List CsvRow) : String :=
  let cpu_power_values := rows.filterMap fun row => cellFloat (rowGet row "cpu_power")
  match cpu_power_values with
  | [] => "unknown"
  | v :: vs =>
    if vs.all (fun w => w == v) then s!"TDP-based (constant cpu_power={v}W)"
    else "Hardware-based (RAPL/powermetrics)"

/-- The dictionary returned by `extract_energy_metadata`; absent keys are
`none`. -/
structure EnergyMetadata where
  error : Option String := none
  tracking_mode : Option String := none
  power_measurement_method : Option String := none
  measurement_reliability : Option String := none
  cpu_power_w : Option ℚ := none
  gpu_power_w : Option ℚ := none
  ram_power_w : Option ℚ := none
  cpu_energy_kwh : Option ℚ := none
  gpu_energy_kwh : Option ℚ := none
  ram_energy_kwh : Option ℚ := none
  energy_consumed_kwh : Option ℚ := none
  cpu_model : Option String := none
  gpu_model : Option String := none
  ram_total_size_gb : Option ℚ := none
  cpu_count : Option String := none
  codecarbon_version : Option String := none
  os : Option String := none
  country_iso_code : Option String := none
  region : Option String := none
deriving DecidableEq

/-- How reading CodeCarbon's CSV went: the file does not exist
(`os.path.exists` is false), it was read and parsed into rows (possibly
zero of them), or an exception was raised while opening or parsing it. -/
inductive CsvReadResult
  | missing (csv_path : String)
  | rows (rs : List CsvRow)
  | ioError (msg : String)

/-- `extract_energy_metadata(csv_path, test_duration)`: never raises past
its boundary.  A missing file or an empty CSV returns an object holding only
an `error` key; any exception returns `error` plus
`measurement_reliability = "unknown"`; otherwise the last row is mined for
metadata and the duration is classified. -/
def extract_energy_metadata (input : CsvReadResult) (test_duration : ℚ) :
    EnergyMetadata :=
  match input with
  | CsvReadResult.missing csv_path => { error := some ("CSV not found: " ++ csv_path) }
  | CsvReadResult.ioError msg =>
    { error := some msg, measurement_reliability := some "unknown" }
  | CsvReadResult.rows rs =>
    match rs.getLast? with
    | none => { error := some "CSV is empty" }
    | some last =>
      { tracking_mode := some (rowStrD last "tracking_mode" "unknown")
        power_measurement_method := some (power_method_of rs)
        measurement_reliability := some (classifyReliability test_duration)
        cpu_power_w := some (rowFloat last "cpu_power")
        gpu_power_w := some (rowFloat last "gpu_power")
        ram_power_w := some (rowFloat last "ram_power")
        cpu_energy_kwh := some (rowFloat last "cpu_energy")
        gpu_energy_kwh := some (rowFloat last "gpu_energy")
        ram_energy_kwh := some (rowFloat last "ram_energy")
        energy_consumed_kwh := some (rowFloat last "energy_consumed")
        cpu_model := some (rowStrD last "cpu_model" "unknown")
        gpu_model := some (rowStrD last "gpu_model" "unknown")
        ram_total_size_gb := some (rowFloat last "ram_total_size")
        cpu_count := some (rowStrD last "cpu_count" "unknown")
        codecarbon_version := some (rowStrD last "codecarbon_version" "unknown")
        os := some (rowStrD last "os" "unknown")
        country_iso_code := some (rowStrD last "country_iso_code" "unknown")
        region := some (rowStrD last "region" "unknown")
        error := none }

/-- The consumer-side lookup in `run_test` (line 465):
`energy_metadata.get("measurement_reliability", "unknown")`. -/
def reliabilityOf (m : EnergyMetadata) : String :=
  m.measurement_reliability.getD "unknown"

/-! ## Pairwise tests (`run_pairwise_tests`, analyze_results.py lines
383-467) -/

/-- `statistics.stdev(l) ** 2`: the Bessel-corrected sample variance. -/
def sampleVariance (l : List ℚ) : ℚ :=
  let m := lMean l
  (l.map fun x => (x - m) ^ 2).sum / ((l.length : ℚ) - 1)

/-- One successful pairwise comparison record.  `cohens_d_sq` is the square
of Python's `cohens_d` (see the module docstring). -/
structure PairwiseResult where
  fw_a : String
  fw_b : String
  mean_a : ℚ
  mean_b : ℚ
  t_statistic : ℚ
  p_raw : ℚ
  p_corrected : ℚ
  significant : Bool
  cohens_d_sq : ℚ
  effect_size : String
  num_comparisons : ℕ
deriving DecidableEq

/-- One entry of the list built by `run_pairwise_tests`: the two warning
shapes or a full result record. -/
inductive PairwiseEntry
  | warn (fw_a fw_b warning : String)
  | nanWarn (fw_a fw_b : String) (mean_a mean_b : ℚ) (warning : String)
  | res (r : PairwiseResult)
deriving DecidableEq

/-- The Welch's t-test collaborator (`sp_stats.ttest_ind(..,
equal_var=False)`): yields the pair (t statistic, raw p-value), or `none`
when either comes back NaN. -/
abbrev WelchT := List ℚ → List ℚ → Option (ℚ × ℚ)

/-- The loop body of `run_pairwise_tests` for one pair (lines 399-465). -/
def pairwiseTest (welch : WelchT) (num_comparisons : ℕ) (fw_a fw_b : String)
    (vals_a vals_b : List ℚ) : PairwiseEntry :=
  if vals_a.length < 2 ∨ vals_b.length < 2 then
    PairwiseEntry.warn fw_a fw_b "Need >= 2 observations per group"
  else
    let mean_a := lMean vals_a
    let mean_b := lMean vals_b
    match welch vals_a vals_b with
    | none =>
      PairwiseEntry.nanWarn fw_a fw_b (pyRound 6 mean_a) (pyRound 6 mean_b)
        "t-test returned NaN"
    | some (t_stat, p_raw) =>
      let p_corrected := min (p_raw * num_comparisons) 1
      let n_a := vals_a.length
      let n_b := vals_b.length
      let pooled_var :=
        (((n_a : ℚ) - 1) * sampleVariance vals_a + ((n_b : ℚ) - 1) * sampleVariance vals_b) /
          ((n_a : ℚ) + (n_b : ℚ) - 2)
      let cohens_d_sq := if 0 < pooled_var then (mean_a - mean_b) ^ 2 / pooled_var else 0
      let effect_size :=
        if cohens_d_sq < (0.2 : ℚ) ^ 2 then "negligible"
        else if cohens_d_sq < (0.5 : ℚ) ^ 2 then "small"
        else if cohens_d_sq < (0.8 : ℚ) ^ 2 then "medium"
        else "large"
      PairwiseEntry.res
        { fw_a := fw_a
          fw_b := fw_b
          mean_a := pyRound 6 mean_a
          mean_b := pyRound 6 mean_b
          t_statistic := pyRound 4 t_stat
          p_raw := pyRound 6 p_raw
          p_corrected := pyRound 6 p_corrected
          significant := decide (p_corrected < ALPHA)
          cohens_d_sq := cohens_d_sq
          effect_size := effect_size
          num_comparisons := num_comparisons }

/-- `itertools.combinations(keys, 2)`: all unordered pairs in key order. -/
def combinations2 {α : Type} : List α → List (α × α)
  | [] => []
  | x :: xs => (xs.map fun y => (x, y)) ++ combinations2 xs

/-- `grouped_by_framework[k]` for a grouping given as a key-ordered
association list. -/
def lookupGroup (groups : List (String × List ℚ)) (k : String) : List ℚ :=
  ((groups.find? fun p => p.1 == k).map Prod.snd).getD []

/-- Python string `<` on code points, as a Boolean comparator. -/
def strLtB : List Char → List Char → Bool
  | [], [] => false
  | [], _ :: _ => true
  | _ :: _, [] => false
  | a :: as, b :: bs =>
    if a.val < b.val then true
    else if b.val < a.val then false
    else strLtB as bs

/-- Python string `<=`. -/
def strLeB (a b : String) : Bool := !(strLtB b.data a.data)

/-- `run_pairwise_tests`: sorted keys, all unordered pairs, Bonferroni count,
one entry per pair. -/
def run_pairwise_tests (welch : WelchT) (groups : List (String × List ℚ)) :
    List PairwiseEntry :=
  let keys := List.insertionSort (fun a b => strLeB a b = true) (groups.map Prod.fst)
  let pairs := combinations2 keys
  let num_comparisons := pairs.length
  pairs.map fun pr =>
    pairwiseTest welch num_comparisons pr.1 pr.2 (lookupGroup groups pr.1)
      (lookupGroup groups pr.2)

/-! ## Winner determination (`determine_statistical_winner`,
analyze_results.py lines 470-555) -/

/-- The dictionary returned by `determine_statistical_winner`; keys the code
does not set in a branch are `none`. -/
structure WinnerResult where
  winner : Option String
  is_significant : Bool
  p_value : Option ℚ := none
  runner_up : Option String := none
  statement : String
deriving DecidableEq

/-- `build_reliability_summary()["overall"]` as passed for caveats. -/
structure RelCounts where
  reliable : ℕ
  marginal : ℕ
  unreliable : ℕ
  unknown : ℕ
deriving DecidableEq

/-- Display formatting of a rational (Python `f"{x:.4f}"`, abstracted). -/
def fmtQ (q : ℚ) : String := toString q

/-- The Welch collaborator as used by `determine_statistical_winner`
(only the p-value is kept); `none` models a NaN p-value. -/
abbrev WelchP := List ℚ → List ℚ → Option ℚ

/-- `means[k]` dictionary lookup. -/
def lookupMean (means : List (String × ℚ)) (k : String) : ℚ :=
  ((means.find? fun p => p.1 == k).map Prod.snd).getD 0

/-- The `means` dictionary: `{k: statistics.mean(v) for k, v in
grouped_by_framework.items()}`. -/
def winnerMeans (groups : List (String × List ℚ)) : List (String × ℚ) :=
  groups.map fun g => (g.1, lMean g.2)

/-- `sorted_fws = sorted(means, key=means.get)` (with `reverse=True` when
higher is better): a stable sort of the insertion-ordered keys by mean. -/
def winnerOrder (groups : List (String × List ℚ)) (direction : String) : List String :=
  if direction = "lower" then
    (List.insertionSort (fun a b => a.2 ≤ b.2) (winnerMeans groups)).map Prod.fst
  else
    (List.insertionSort (fun a b => b.2 ≤ a.2) (winnerMeans groups)).map Prod.fst

instance : IsTotal (String × ℚ) fun a b => a.2 ≤ b.2 :=
  ⟨fun a b => le_total a.2 b.2⟩

instance : IsTrans (String × ℚ) fun a b => a.2 ≤ b.2 :=
  ⟨fun _ _ _ h1 h2 => le_trans h1 h2⟩

instance : IsTotal (String × ℚ) fun a b => b.2 ≤ a.2 :=
  ⟨fun a b => le_total b.2 a.2⟩

instance : IsTrans (String × ℚ) fun a b => b.2 ≤ a.2 :=
  ⟨fun _ _ _ h1 h2 => le_trans h2 h1⟩

/-- The trailing `statement += caveat` block of
`determine_statistical_winner` (lines 540-547). -/
def appendCaveat (statement : String) (reliability_counts : Option RelCounts) : String :=
  match reliability_counts with
  | none => statement
  | some rc =>
    let total_m := rc.reliable + rc.marginal + rc.unreliable + rc.unknown
    if 0 < total_m ∧ rc.unreliable = total_m then
      statement ++ " [CAVEAT: all measurements below noise floor]"
    else if 0 < rc.unreliable then
      statement ++
        (" [CAVEAT: " ++ (toString rc.unreliable ++ ("/" ++
          (toString total_m ++ " measurements unreliable]"))))
    else statement

/-- The t-test tail of `determine_statistical_winner` (lines 522-555):
Welch's t-test between winner and runner-up, `[SIG]`/`[N.S.]` tagging of the
statement, reliability caveat, and the returned record. -/
def winnerTTest (welch : WelchP) (groups : List (String × List ℚ))
    (best runner_up : String) (best_mean : ℚ)
    (reliability_counts : Option RelCounts) : WinnerResult :=
  let vals_best := lookupGroup groups best
  let vals_runner := lookupGroup groups runner_up
  let pOpt := welch vals_best vals_runner
  let significant := match pOpt with
    | some p => decide (p < ALPHA)
    | none => false
  let tag := if significant then "[SIG]" else "[N.S.]"
  let pStr := match pOpt with
    | some p => fmtQ p
    | none => "nan"
  let qualifier :=
    if significant then
      "significantly better than " ++ (runner_up ++ (" (p=" ++ (pStr ++ ")")))
    else
      "not significantly different from " ++ (runner_up ++ (" (p=" ++ (pStr ++ ")")))
  let statement :=
    tag ++ (" " ++ (best ++ (" (" ++ (fmtQ best_mean ++ (") — " ++ qualifier)))))
  { winner := some best
    is_significant := significant
    p_value := match pOpt with
      | some p => some (pyRound 6 p)
      | none => none
    runner_up := some runner_up
    statement := appendCaveat statement reliability_counts }

/-- `determine_statistical_winner(grouped_by_framework, metric, direction,
reliability_counts)`. -/
def determine_statistical_winner (hasScipy : Bool) (welch : WelchP)
    (groups : List (String × List ℚ)) (_metric : String) (direction : String)
    (reliability_counts : Option RelCounts) : WinnerResult :=
  match groups with
  | [] => { winner := none, is_significant := false, statement := "No data" }
  | _ :: _ =>
    let means := winnerMeans groups
    let sorted_fws := winnerOrder groups direction
    match sorted_fws with
    | [] => { winner := none, is_significant := false, statement := "No data" }
    | best :: rest =>
      let best_mean := lookupMean means best
      match rest with
      | [] =>
        { winner := some best, is_significant := false,
          statement := best ++ " (only one framework)" }
      | runner_up :: _ =>
        let vals_best := lookupGroup groups best
        let vals_runner := lookupGroup groups runner_up
        if ¬hasScipy ∨ vals_best.length < 2 ∨ vals_runner.length < 2 then
          { winner := some best, is_significant := false,
            statement :=
              best ++ (" (" ++ (fmtQ best_mean ++ ") — not enough data for significance test")) }
        else
          winnerTTest welch groups best runner_up best_mean reliability_counts

/-! ## Helper lemmas -/

theorem taggedWith_data {tag s : String} (h : taggedWith tag s) :
    s.data.take tag.data.length = tag.data := by
  obtain ⟨rest, rfl⟩ := h
  rw [String.data_append, List.take_left]

theorem pyStartsWith_iff {s pre : String} :
    pyStartsWith s pre = true ↔ taggedWith pre s := by
  unfold pyStartsWith taggedWith
  rw [List.isPrefixOf_iff_prefix]
  constructor
  · rintro ⟨t, ht⟩
    exact ⟨⟨t⟩, String.ext (by rw [String.data_append]; exact ht.symm)⟩
  · rintro ⟨t, rfl⟩
    exact ⟨t.data, (String.data_append _ _).symm⟩

theorem classifyReliability_eq (x : ℚ) :
    classifyReliability x =
      if 15 ≤ x then "reliable" else if 5 ≤ x then "marginal" else "unreliable" := by
  unfold classifyReliability RELIABILITY_THRESHOLDS
  norm_num

theorem foldl_recordResult_counts (l : List ReqResult) (st : LoadResults) :
    (l.foldl recordResult st).success + (l.foldl recordResult st).errors
      = st.success + st.errors + l.length := by
  induction l generalizing st with
  | nil => simp
  | cons r t ih =>
    rw [List.foldl_cons, ih]
    cases h : r.success <;> simp [recordResult, h] <;> omega

theorem foldl_recordResult_times (l : List ReqResult) (st : LoadResults)
    (h : st.response_times.length = st.success) :
    (l.foldl recordResult st).response_times.length = (l.foldl recordResult st).success := by
  induction l generalizing st with
  | nil => exact h
  | cons r t ih =>
    rw [List.foldl_cons]
    apply ih
    cases hr : r.success <;> simp [recordResult, hr, h]

theorem comparisonSuiteOrder_succ (configs : List SuiteConfig) (R : ℕ) :
    comparisonSuiteOrder configs (R + 1)
      = comparisonSuiteOrder configs R ++ configs.map fun c => (c, R + 1) := by
  unfold comparisonSuiteOrder
  rw [List.range_succ, List.flatMap_append]
  simp

theorem comparisonSuiteOrder_length (configs : List SuiteConfig) (R : ℕ) :
    (comparisonSuiteOrder configs R).length = R * configs.length := by
  induction R with
  | zero => simp [comparisonSuiteOrder]
  | succ n ih =>
    rw [comparisonSuiteOrder_succ, List.length_append, ih, List.length_map]
    ring

/-! ## C1 — reliability classifier -/

/-- C1: the reliability classifier is a pure function of tracked duration
with inclusive lower boundaries: duration ≥ 15 is "reliable" (so 20 and 15
are), 5 ≤ duration < 15 is "marginal" (so 10 and 5 are), duration < 5 is
"unreliable" (so 2 is); both the adapter (`extract_energy_metadata`) and the
analyzer fallback (`_extract_reliability`) apply exactly this function. -/
theorem reliability_classifier_spec (d : ℚ) :
    (15 ≤ d → classifyReliability d = "reliable") ∧
    (5 ≤ d → d < 15 → classifyReliability d = "marginal") ∧
    (d < 5 → classifyReliability d = "unreliable") ∧
    classifyReliability 20 = "reliable" ∧
    classifyReliability 15 = "reliable" ∧
    classifyReliability 10 = "marginal" ∧
    classifyReliability 5 = "marginal" ∧
    classifyReliability 2 = "unreliable" ∧
    (∀ (rs : List CsvRow) (last : CsvRow),
      (extract_energy_metadata (CsvReadResult.rows (rs ++ [last])) d).measurement_reliability
        = some (classifyReliability d)) ∧
    (d ≠ 0 →
      extract_reliability
          { measurement_reliability := none, energy_metadata_reliability := none,
            total_tracked_duration_seconds := some d, duration_seconds := none }
        = classifyReliability d) := by
  refine ⟨?_, ?_, ?_, ?_, ?_, ?_, ?_, ?_, ?_, ?_⟩
  · intro h; rw [classifyReliability_eq, if_pos h]
  · intro h1 h2
    rw [classifyReliability_eq, if_neg (by linarith), if_pos h1]
  · intro h
    rw [classifyReliability_eq, if_neg (by linarith), if_neg (by linarith)]
  · rw [classifyReliability_eq]; norm_num
  · rw [classifyReliability_eq]; norm_num
  · rw [classifyReliability_eq]; norm_num
  · rw [classifyReliability_eq]; norm_num
  · rw [classifyReliability_eq]; norm_num
  · intro rs last
    simp [extract_energy_metadata, List.getLast?_concat]
  · intro hd
    simp only [extract_reliability, pyTruthyStr, pyOrFloat, if_neg hd]
    rw [classifyReliability_eq]
    unfold RELIABILITY_THRESHOLDS
    norm_num

/-- Witness for C1 at concrete durations. -/
theorem reliability_classifier_spec_witness :
    (15 ≤ (20 : ℚ) ∧ classifyReliability 20 = "reliable") ∧
    ((2 : ℚ) ≠ 0 ∧
      extract_reliability
          { measurement_reliability := none, energy_metadata_reliability := none,
            total_tracked_duration_seconds := some 2, duration_seconds := none }
        = classifyReliability 2) := by
  obtain ⟨h1, -, -, -, -, -, -, -, -, -⟩ := reliability_classifier_spec 20
  obtain ⟨-, -, -, -, -, -, -, -, -, h10⟩ := reliability_classifier_spec 2
  exact ⟨⟨by norm_num, h1 (by norm_num)⟩, ⟨by norm_num, h10 (by norm_num)⟩⟩

/-! ## C2 — load-phase counting invariant -/

/-- C2: for every load phase of N ≥ 1 requests, sequentially or
concurrently (any completion order that is a permutation of the submitted
requests), `success_count + error_count = N` and the response-time sample
has length `success_count`. -/
theorem load_phase_counts (outcomes completionOrder : List ReqResult)
    (_hN : 1 ≤ outcomes.length) (hperm : completionOrder.Perm outcomes) :
    ((run_sequential outcomes LoadResults.init).success
        + (run_sequential outcomes LoadResults.init).errors = outcomes.length) ∧
    ((run_sequential outcomes LoadResults.init).response_times.length
        = (run_sequential outcomes LoadResults.init).success) ∧
    ((run_concurrent completionOrder LoadResults.init).success
        + (run_concurrent completionOrder LoadResults.init).errors = outcomes.length) ∧
    ((run_concurrent completionOrder LoadResults.init).response_times.length
        = (run_concurrent completionOrder LoadResults.init).success) := by
  have hlen := hperm.length_eq
  unfold run_sequential run_concurrent
  refine ⟨?_, ?_, ?_, ?_⟩
  · rw [foldl_recordResult_counts]; simp [LoadResults.init]
  · exact foldl_recordResult_times _ _ rfl
  · rw [foldl_recordResult_counts]; simp [LoadResults.init, hlen]
  · exact foldl_recordResult_times _ _ rfl

/-- Witness for C2: two requests, one success and one error, completing in
swapped order. -/
theorem load_phase_counts_witness :
    1 ≤ ([⟨true, 12⟩, ⟨false, 0⟩] : List ReqResult).length ∧
    ([⟨false, 0⟩, ⟨true, 12⟩] : List ReqResult).Perm [⟨true, 12⟩, ⟨false, 0⟩] ∧
    (run_concurrent [⟨false, 0⟩, ⟨true, 12⟩] LoadResults.init).success
      + (run_concurrent [⟨false, 0⟩, ⟨true, 12⟩] LoadResults.init).errors = 2 := by
  refine ⟨by norm_num, by decide, ?_⟩
  have h := (load_phase_counts [⟨true, 12⟩, ⟨false, 0⟩] [⟨false, 0⟩, ⟨true, 12⟩]
      (by norm_num) (by decide)).2.2.1
  simpa using h

/-! ## C7 — emissions adapter error handling -/

/-- Counterexample for C7 as stated: for a missing telemetry CSV the adapter
returns an error object whose `measurement_reliability` key is absent, not
set to `"unknown"`. -/
theorem energy_metadata_missing_counterexample :
    (extract_energy_metadata
        (CsvReadResult.missing "./test_results/codecarbon_fastapi_light_100.csv")
        10).error
      = some "CSV not found: ./test_results/codecarbon_fastapi_light_100.csv" ∧
    (extract_energy_metadata
        (CsvReadResult.missing "./test_results/codecarbon_fastapi_light_100.csv")
        10).measurement_reliability = none ∧
    (extract_energy_metadata
        (CsvReadResult.missing "./test_results/codecarbon_fastapi_light_100.csv")
        10).measurement_reliability ≠ some "unknown" := by
  refine ⟨rfl, rfl, ?_⟩
  intro h
  rw [show (extract_energy_metadata
      (CsvReadResult.missing "./test_results/codecarbon_fastapi_light_100.csv")
      10).measurement_reliability = none from rfl] at h
  exact Option.noConfusion h

/-- C7 (amended): the adapter is total and every failure input yields an
object with an `error` field; `measurement_reliability` is set to
`"unknown"` only in the exception branch and absent for a missing or empty
CSV, and the consumer-side `get("measurement_reliability", "unknown")`
observes `"unknown"` for all three failure shapes; a result without `error`
comes from a nonempty row list and carries the duration classification. -/
theorem energy_metadata_error_spec (csv_path msg : String) (d : ℚ)
    (inp : CsvReadResult) :
    ((extract_energy_metadata (CsvReadResult.missing csv_path) d).error
        = some ("CSV not found: " ++ csv_path)) ∧
    ((extract_energy_metadata (CsvReadResult.missing csv_path) d).measurement_reliability
        = none) ∧
    ((extract_energy_metadata (CsvReadResult.rows []) d).error = some "CSV is empty") ∧
    ((extract_energy_metadata (CsvReadResult.rows []) d).measurement_reliability = none) ∧
    ((extract_energy_metadata (CsvReadResult.ioError msg) d).error = some msg) ∧
    ((extract_energy_metadata (CsvReadResult.ioError msg) d).measurement_reliability
        = some "unknown") ∧
    (reliabilityOf (extract_energy_metadata (CsvReadResult.missing csv_path) d)
        = "unknown") ∧
    (reliabilityOf (extract_energy_metadata (CsvReadResult.rows []) d) = "unknown") ∧
    (reliabilityOf (extract_energy_metadata (CsvReadResult.ioError msg) d) = "unknown") ∧
    ((extract_energy_metadata inp d).error = none →
      ∃ rs last, inp = CsvReadResult.rows rs ∧ rs.getLast? = some last ∧
        (extract_energy_metadata inp d).measurement_reliability
          = some (classifyReliability d)) := by
  refine ⟨rfl, rfl, rfl, rfl, rfl, rfl, rfl, rfl, rfl, ?_⟩
  intro he
  cases inp with
  | missing p => simp [extract_energy_metadata] at he
  | ioError m => simp [extract_energy_metadata] at he
  | rows rs =>
    cases h : rs.getLast? with
    | none => simp [extract_energy_metadata, h] at he
    | some last => exact ⟨rs, last, rfl, h, by simp [extract_energy_metadata, h]⟩

/-- Witness for C7 at concrete inputs. -/
theorem energy_metadata_error_spec_witness :
    reliabilityOf (extract_energy_metadata (CsvReadResult.missing "x.csv") 3)
        = "unknown" ∧
    reliabilityOf (extract_energy_metadata (CsvReadResult.ioError "boom") 3)
        = "unknown" ∧
    ∃ rs last, CsvReadResult.rows [[("cpu_power", CsvCell.numC 42)]]
        = CsvReadResult.rows rs ∧ rs.getLast? = some last ∧
      (extract_energy_metadata (CsvReadResult.rows [[("cpu_power", CsvCell.numC 42)]])
          3).measurement_reliability = some (classifyReliability 3) := by
  obtain ⟨-, -, -, -, -, -, h7, -, h9, h10⟩ :=
    energy_metadata_error_spec "x.csv" "boom" 3
      (CsvReadResult.rows [[("cpu_power", CsvCell.numC 42)]])
  exact ⟨h7, h9, h10 rfl⟩

/-! ## C9 — load dispatch -/

/-- C9: `run_test` issues requests sequentially exactly when N ≤ 100 and
otherwise concurrently over `min(100, N // 10)` workers, a width always
between 10 and 100. -/
theorem load_dispatch_spec (N : ℕ) :
    (N ≤ 100 → runTestDispatch N = LoadMode.sequential) ∧
    (100 < N →
      runTestDispatch N = LoadMode.concurrent (min 100 (N / 10)) ∧
      ∀ w, runTestDispatch N = LoadMode.concurrent w → 10 ≤ w ∧ w ≤ 100) := by
  constructor
  · intro h
    rw [runTestDispatch, if_pos h]
  · intro h
    have hn : ¬ N ≤ 100 := by omega
    refine ⟨by rw [runTestDispatch, if_neg hn], ?_⟩
    intro w hw
    rw [runTestDispatch, if_neg hn] at hw
    cases hw
    omega

/-- Witness for C9 at N = 50 (sequential) and N = 1000 (100 workers). -/
theorem load_dispatch_spec_witness :
    ((50 : ℕ) ≤ 100 ∧ runTestDispatch 50 = LoadMode.sequential) ∧
    (100 < (1000 : ℕ) ∧ runTestDispatch 1000 = LoadMode.concurrent 100) := by
  refine ⟨⟨by norm_num, (load_dispatch_spec 50).1 (by norm_num)⟩, ⟨by norm_num, ?_⟩⟩
  have h := ((load_dispatch_spec 1000).2 (by norm_num)).1
  simpa using h

/-! ## C10 — empty response-time sample -/

/-- C10: on an empty response-time sample `get_statistics` returns the
all-zero record instead of raising. -/
theorem empty_sample_statistics :
    get_statistics [] =
      { min_ms := 0, max_ms := 0, mean_ms := 0, median_ms := 0, p95_ms := 0, p99_ms := 0 } :=
  rfl

/-! ## C3 — round-robin scheduling -/

/-- C3: `run_comparison_suite` executes round-robin: position
`r * |configs| + i` of the execution order holds configuration `i` of round
`r + 1`; for subjects A and B with one load, one endpoint and two requested
runs the order is A(run1), B(run1), A(run2), B(run2), and not A(run1),
A(run2), B(run1), B(run2). -/
theorem round_robin_order :
    (∀ (configs : List SuiteConfig) (R r i : ℕ), r < R → i < configs.length →
      (comparisonSuiteOrder configs R)[r * configs.length + i]?
        = (configs[i]?).map fun c => (c, r + 1)) ∧
    comparisonSuiteOrder [cfgA, cfgB] 2 = [(cfgA, 1), (cfgB, 1), (cfgA, 2), (cfgB, 2)] ∧
    comparisonSuiteOrder [cfgA, cfgB] 2 ≠ [(cfgA, 1), (cfgA, 2), (cfgB, 1), (cfgB, 2)] ∧
    (∀ (configs : List SuiteConfig) (R : ℕ),
      (comparisonSuiteOrder configs R).length = R * configs.length) := by
  refine ⟨?_, by decide, by decide, comparisonSuiteOrder_length⟩
  intro configs R
  induction R with
  | zero => intro r i hr; omega
  | succ n ih =>
    intro r i hr hi
    rw [comparisonSuiteOrder_succ]
    rcases Nat.lt_succ_iff_lt_or_eq.mp hr with h | rfl
    · rw [List.getElem?_append_left ?side]
      case side =>
        rw [comparisonSuiteOrder_length]
        have h1 : r + 1 ≤ n := h
        have h2 : (r + 1) * configs.length ≤ n * configs.length :=
          Nat.mul_le_mul_right _ h1
        have h3 : r * configs.length + configs.length = (r + 1) * configs.length := by ring
        omega
      exact ih r i h hi
    · rw [List.getElem?_append_right (by rw [comparisonSuiteOrder_length]; omega)]
      rw [comparisonSuiteOrder_length, Nat.add_sub_cancel_left, List.getElem?_map]

/-- Witness for C3: round 2 (index r = 1) of the two-subject suite starts
with subject A tagged run 2. -/
theorem round_robin_order_witness :
    (1 : ℕ) < 2 ∧ (0 : ℕ) < ([cfgA, cfgB] : List SuiteConfig).length ∧
    (comparisonSuiteOrder [cfgA, cfgB] 2)[1 * ([cfgA, cfgB] : List SuiteConfig).length + 0]?
      = some (cfgA, 2) := by
  refine ⟨by norm_num, by decide, ?_⟩
  have h := round_robin_order.1 [cfgA, cfgB] 2 1 0 (by norm_num) (by decide)
  simpa using h

/-! ## C4 — loader duplicate guard -/

/-- C4: the result loader skips every file whose basename starts with the
reserved prefix `comparison_suite_` wherever it appears in the directory
listing — so a combined batch file contributes nothing and the records it
aggregates are counted only once, through the individual files — and the
combined batch artifact written by `run_comparison_suite` always carries
that prefix. -/
theorem loader_skips_combined {α : Type} (pre post : List (ResultFile α))
    (c : ResultFile α) (hc : pyStartsWith c.basename "comparison_suite_" = true) :
    (load_test_results (pre ++ c :: post) = load_test_results (pre ++ post)) ∧
    (∀ ts, pyStartsWith (combinedFileBasename ts) "comparison_suite_" = true) := by
  constructor
  · unfold load_test_results
    rw [List.foldl_append, List.foldl_append, List.foldl_cons]
    simp [hc]
  · intro ts
    rw [pyStartsWith_iff]
    exact ⟨ts ++ ".json", rfl⟩

/-- Witness for C4: one individual record file plus the combined batch file
aggregating the same record load to a single record. -/
theorem loader_skips_combined_witness :
    pyStartsWith "comparison_suite_20240101_000000.json" "comparison_suite_" = true ∧
    load_test_results
        ([({ basename := "fastapi_light_100_run1_20240101_000000.json",
             data := FileData.single cfgA } : ResultFile SuiteConfig)] ++
          ({ basename := "comparison_suite_20240101_000000.json",
             data := FileData.array [cfgA] } : ResultFile SuiteConfig) :: [])
      = load_test_results
          ([({ basename := "fastapi_light_100_run1_20240101_000000.json",
               data := FileData.single cfgA } : ResultFile SuiteConfig)] ++ []) ∧
    load_test_results
        [({ basename := "fastapi_light_100_run1_20240101_000000.json",
            data := FileData.single cfgA } : ResultFile SuiteConfig),
         { basename := "comparison_suite_20240101_000000.json",
           data := FileData.array [cfgA] }]
      = [cfgA] := by
  refine ⟨by decide, ?_, by decide⟩
  exact (loader_skips_combined
      [{ basename := "fastapi_light_100_run1_20240101_000000.json",
         data := FileData.single cfgA }] []
      { basename := "comparison_suite_20240101_000000.json",
        data := FileData.array [cfgA] } (by decide)).1

/-! ## Helpers for rounding monotonicity and sorted indexing -/

theorem rhe_floor_le (q : ℚ) : ⌊q⌋ ≤ rhe q := by
  unfold rhe
  split_ifs <;> omega

theorem rhe_le_floor_add_one (q : ℚ) : rhe q ≤ ⌊q⌋ + 1 := by
  unfold rhe
  split_ifs <;> omega

theorem rhe_mono {a b : ℚ} (h : a ≤ b) : rhe a ≤ rhe b := by
  rcases lt_or_eq_of_le (Int.floor_le_floor h : ⌊a⌋ ≤ ⌊b⌋) with hf | hf
  · calc rhe a ≤ ⌊a⌋ + 1 := rhe_le_floor_add_one a
      _ ≤ ⌊b⌋ := by omega
      _ ≤ rhe b := rhe_floor_le b
  · unfold rhe
    rw [← hf]
    split_ifs <;> first | omega | (exfalso; linarith)

theorem pyRound_mono (d : ℕ) {a b : ℚ} (h : a ≤ b) : pyRound d a ≤ pyRound d b := by
  unfold pyRound
  have hp : (0 : ℚ) < 10 ^ d := by positivity
  have hm : rhe (a * 10 ^ d) ≤ rhe (b * 10 ^ d) :=
    rhe_mono (mul_le_mul_of_nonneg_right h (le_of_lt hp))
  gcongr

theorem sorted_getD_mono {l : List ℚ} (hs : List.Sorted (· ≤ ·) l) {i j : ℕ}
    (hij : i ≤ j) (hj : j < l.length) : l.getD i 0 ≤ l.getD j 0 := by
  have hi : i < l.length := lt_of_le_of_lt hij hj
  rw [List.getD_eq_getElem _ _ hi, List.getD_eq_getElem _ _ hj]
  rcases eq_or_lt_of_le hij with rfl | hlt
  · exact le_refl _
  · have := hs.rel_get_of_lt (a := ⟨i, hi⟩) (b := ⟨j, hj⟩) hlt
    simpa using this

/-! ## C8 — percentile ordering -/

/-- C8: for every nonempty response-time sample the reported percentiles
satisfy p50 ≤ p95 ≤ p99, where p95 and p99 are nearest-rank entries of the
sorted sample at index `int(len * 0.95)` resp. `int(len * 0.99)` (equal to
`19·len/20` and `99·len/100` by integer division, never interpolated). -/
theorem percentile_order (times : List ℚ) (h : times ≠ []) :
    ((get_statistics times).median_ms ≤ (get_statistics times).p95_ms) ∧
    ((get_statistics times).p95_ms ≤ (get_statistics times).p99_ms) ∧
    ((get_statistics times).p95_ms
      = pyRound 2 ((List.insertionSort (· ≤ ·) times).getD (19 * times.length / 20) 0)) ∧
    ((get_statistics times).p99_ms
      = pyRound 2 ((List.insertionSort (· ≤ ·) times).getD (99 * times.length / 100) 0)) ∧
    (⌊(times.length : ℚ) * 0.95⌋₊ = 19 * times.length / 20) ∧
    (⌊(times.length : ℚ) * 0.99⌋₊ = 99 * times.length / 100) := by
  obtain ⟨x, xs, rfl⟩ := List.exists_cons_of_ne_nil h
  have hsort : List.Sorted (· ≤ ·) (List.insertionSort (· ≤ ·) (x :: xs)) :=
    List.sorted_insertionSort _ _
  have hlen : (List.insertionSort (· ≤ ·) (x :: xs)).length = xs.length + 1 := by
    rw [List.length_insertionSort]; rfl
  have e95 : ∀ m : ℕ, ⌊(m : ℚ) * 0.95⌋₊ = 19 * m / 20 := by
    intro m
    have h0 : (m : ℚ) * 0.95 = ((19 * m : ℕ) : ℚ) / ((20 : ℕ) : ℚ) := by
      push_cast; ring_nf
    rw [h0, Nat.floor_div_nat, Nat.floor_natCast]
  have e99 : ∀ m : ℕ, ⌊(m : ℚ) * 0.99⌋₊ = 99 * m / 100 := by
    intro m
    have h0 : (m : ℚ) * 0.99 = ((99 * m : ℕ) : ℚ) / ((100 : ℕ) : ℚ) := by
      push_cast; ring_nf
    rw [h0, Nat.floor_div_nat, Nat.floor_natCast]
  have hf95 : (get_statistics (x :: xs)).p95_ms
      = pyRound 2 ((List.insertionSort (· ≤ ·) (x :: xs)).getD
          (19 * (xs.length + 1) / 20) 0) := by
    show pyRound 2 ((List.insertionSort (· ≤ ·) (x :: xs)).getD
        ⌊((List.insertionSort (· ≤ ·) (x :: xs)).length : ℚ) * 0.95⌋₊ 0) = _
    rw [hlen, e95]
  have hf99 : (get_statistics (x :: xs)).p99_ms
      = pyRound 2 ((List.insertionSort (· ≤ ·) (x :: xs)).getD
          (99 * (xs.length + 1) / 100) 0) := by
    show pyRound 2 ((List.insertionSort (· ≤ ·) (x :: xs)).getD
        ⌊((List.insertionSort (· ≤ ·) (x :: xs)).length : ℚ) * 0.99⌋₊ 0) = _
    rw [hlen, e99]
  have hfmed : (get_statistics (x :: xs)).median_ms = pyRound 2 (pyMedian (x :: xs)) := rfl
  have hmed : pyMedian (x :: xs)
      ≤ (List.insertionSort (· ≤ ·) (x :: xs)).getD (19 * (xs.length + 1) / 20) 0 := by
    unfold pyMedian
    simp only [hlen]
    by_cases hpar : (xs.length + 1) % 2 = 1
    · rw [if_pos hpar]
      exact sorted_getD_mono hsort (by omega) (by omega)
    · rw [if_neg hpar]
      have h1 : (List.insertionSort (· ≤ ·) (x :: xs)).getD ((xs.length + 1) / 2 - 1) 0
          ≤ (List.insertionSort (· ≤ ·) (x :: xs)).getD ((xs.length + 1) / 2) 0 :=
        sorted_getD_mono hsort (by omega) (by omega)
      have h2 : (List.insertionSort (· ≤ ·) (x :: xs)).getD ((xs.length + 1) / 2) 0
          ≤ (List.insertionSort (· ≤ ·) (x :: xs)).getD (19 * (xs.length + 1) / 20) 0 :=
        sorted_getD_mono hsort (by omega) (by omega)
      linarith
  have h9599 : (List.insertionSort (· ≤ ·) (x :: xs)).getD (19 * (xs.length + 1) / 20) 0
      ≤ (List.insertionSort (· ≤ ·) (x :: xs)).getD (99 * (xs.length + 1) / 100) 0 :=
    sorted_getD_mono hsort (by omega) (by omega)
  refine ⟨?_, ?_, ?_, ?_, ?_, ?_⟩
  · rw [hfmed, hf95]
    exact pyRound_mono 2 hmed
  · rw [hf95, hf99]
    exact pyRound_mono 2 h9599
  · rw [hf95]; rfl
  · rw [hf99]; rfl
  · rw [e95]
  · rw [e99]

/-- Witness for C8 at the sample [3, 1, 2]. -/
theorem percentile_order_witness :
    (([3, 1, 2] : List ℚ) ≠ []) ∧
    ((get_statistics [3, 1, 2]).median_ms ≤ (get_statistics [3, 1, 2]).p95_ms) ∧
    ((get_statistics [3, 1, 2]).p95_ms ≤ (get_statistics [3, 1, 2]).p99_ms) := by
  have h := percentile_order [3, 1, 2] (by decide)
  exact ⟨by decide, h.1, h.2.1⟩

/-! ## C5 — Bonferroni-corrected pairwise tests -/

theorem combinations2_length {α : Type} (l : List α) :
    (combinations2 l).length = l.length.choose 2 := by
  induction l with
  | nil => rfl
  | cons x xs ih =>
    simp only [combinations2, List.length_append, List.length_map, ih, List.length_cons]
    rw [Nat.choose_succ_succ, Nat.choose_one_right]

theorem pairwiseTest_shape (welch : WelchT) (k : ℕ) (a b : String)
    (va vb : List ℚ) :
    (∃ w, pairwiseTest welch k a b va vb = PairwiseEntry.warn a b w) ∨
    (∃ ma mb w, pairwiseTest welch k a b va vb = PairwiseEntry.nanWarn a b ma mb w) ∨
    (∃ pl, pairwiseTest welch k a b va vb = PairwiseEntry.res pl ∧
      pl.num_comparisons = k) := by
  unfold pairwiseTest
  by_cases hcond : va.length < 2 ∨ vb.length < 2
  · rw [if_pos hcond]
    exact Or.inl ⟨_, rfl⟩
  · rw [if_neg hcond]
    cases hw : welch va vb with
    | none => exact Or.inr (Or.inl ⟨_, _, _, rfl⟩)
    | some pr =>
      obtain ⟨t, praw⟩ := pr
      exact Or.inr (Or.inr ⟨_, rfl, rfl⟩)

theorem pairwiseTest_num_comparisons (welch : WelchT) (k : ℕ) (a b : String)
    (va vb : List ℚ) (pl : PairwiseResult)
    (h : pairwiseTest welch k a b va vb = PairwiseEntry.res pl) :
    pl.num_comparisons = k := by
  rcases pairwiseTest_shape welch k a b va vb with ⟨w, hw2⟩ | ⟨ma, mb, w, hw2⟩ | ⟨pl2, hw2, hk⟩
  · exact PairwiseEntry.noConfusion (h.symm.trans hw2)
  · exact PairwiseEntry.noConfusion (h.symm.trans hw2)
  · injection h.symm.trans hw2 with h3
    rw [h3]
    exact hk

/-- C5: `run_pairwise_tests` produces one entry per unordered subject pair
(`choose 2` of the subject count); every full result entry carries that
comparison count; the corrected p-value stored for a pair with raw p-value
`praw` is `min(praw * k, 1)` (serialized with 6-digit rounding) and the
significance flag is exactly `min(praw * k, 1) < ALPHA`; in particular for
k = 3 and raw p = 0.02 the corrected p is 0.06, which is not significant. -/
theorem bonferroni_spec (welch : WelchT) (groups : List (String × List ℚ)) :
    ((run_pairwise_tests welch groups).length = groups.length.choose 2) ∧
    (∀ pl : PairwiseResult, PairwiseEntry.res pl ∈ run_pairwise_tests welch groups →
      pl.num_comparisons = groups.length.choose 2) ∧
    (∀ (k : ℕ) (a b : String) (va vb : List ℚ) (t praw : ℚ),
      2 ≤ va.length → 2 ≤ vb.length → welch va vb = some (t, praw) →
      ∃ pl, pairwiseTest welch k a b va vb = PairwiseEntry.res pl ∧
        pl.p_corrected = pyRound 6 (min (praw * (k : ℚ)) 1) ∧
        pl.significant = decide (min (praw * (k : ℚ)) 1 < ALPHA) ∧
        pl.num_comparisons = k) ∧
    (pyRound 6 (min ((1/50 : ℚ) * 3) 1) = 3/50 ∧ ¬ ((3/50 : ℚ) < ALPHA)) := by
  have hpairs : (combinations2 (List.insertionSort (fun a b => strLeB a b = true)
      (groups.map Prod.fst))).length = groups.length.choose 2 := by
    rw [combinations2_length, List.length_insertionSort, List.length_map]
  refine ⟨?_, ?_, ?_, ?_, ?_⟩
  · simp only [run_pairwise_tests, List.length_map]
    exact hpairs
  · intro pl hmem
    simp only [run_pairwise_tests, List.mem_map] at hmem
    obtain ⟨pr, -, hpr⟩ := hmem
    rw [← hpairs]
    exact pairwiseTest_num_comparisons _ _ _ _ _ _ _ hpr
  · intro k a b va vb t praw ha hb hw
    have hcond : ¬ (va.length < 2 ∨ vb.length < 2) := by omega
    unfold pairwiseTest
    rw [if_neg hcond, hw]
    exact ⟨_, rfl, rfl, rfl, rfl⟩
  · have h1 : min ((1/50 : ℚ) * 3) 1 = 3/50 := by norm_num
    rw [h1]
    unfold pyRound rhe
    norm_num
  · unfold ALPHA
    norm_num

/-- Witness for C5: raw p = 0.02 with 3 comparisons on two 2-element groups. -/
theorem bonferroni_spec_witness :
    (2 ≤ ([1, 2] : List ℚ).length) ∧ (2 ≤ ([4, 5] : List ℚ).length) ∧
    ∃ pl, pairwiseTest (fun _ _ => some (0, 1/50)) 3 "A" "B" [1, 2] [4, 5]
        = PairwiseEntry.res pl ∧
      pl.p_corrected = pyRound 6 (min ((1/50 : ℚ) * (3 : ℕ)) 1) ∧
      pl.significant = decide (min ((1/50 : ℚ) * (3 : ℕ)) 1 < ALPHA) ∧
      pl.num_comparisons = 3 := by
  refine ⟨by norm_num, by norm_num, ?_⟩
  exact (bonferroni_spec (fun _ _ => some (0, 1/50)) []).2.2.1 3 "A" "B" [1, 2] [4, 5]
    0 (1/50) (by norm_num) (by norm_num) rfl

/-! ## C6 — winner determination -/

theorem taggedWith_appendCaveat (tag A : String) (rc : Option RelCounts) :
    taggedWith tag (appendCaveat (tag ++ A) rc) := by
  unfold appendCaveat
  cases rc with
  | none => exact ⟨A, rfl⟩
  | some rcv =>
    dsimp only
    split_ifs <;>
      first
        | exact ⟨A, rfl⟩
        | exact ⟨_, String.append_assoc _ _ _⟩

theorem insertionSort_snd_head_min (means : List (String × ℚ)) (p : String × ℚ)
    (rest : List (String × ℚ))
    (h : List.insertionSort (fun a b => a.2 ≤ b.2) means = p :: rest) :
    ∀ q ∈ means, p.2 ≤ q.2 := by
  intro q hq
  have hperm := List.perm_insertionSort (fun (a b : String × ℚ) => a.2 ≤ b.2) means
  have hq2 : q ∈ p :: rest := by
    rw [← h]
    exact hperm.mem_iff.mpr hq
  have hsorted : List.Sorted (fun (a b : String × ℚ) => a.2 ≤ b.2) (p :: rest) := by
    rw [← h]
    exact List.sorted_insertionSort _ _
  rcases List.mem_cons.mp hq2 with rfl | hq3
  · exact le_refl _
  · exact List.rel_of_sorted_cons hsorted q hq3

theorem insertionSort_snd_head_max (means : List (String × ℚ)) (p : String × ℚ)
    (rest : List (String × ℚ))
    (h : List.insertionSort (fun a b => b.2 ≤ a.2) means = p :: rest) :
    ∀ q ∈ means, q.2 ≤ p.2 := by
  intro q hq
  have hperm := List.perm_insertionSort (fun (a b : String × ℚ) => b.2 ≤ a.2) means
  have hq2 : q ∈ p :: rest := by
    rw [← h]
    exact hperm.mem_iff.mpr hq
  have hsorted : List.Sorted (fun (a b : String × ℚ) => b.2 ≤ a.2) (p :: rest) := by
    rw [← h]
    exact List.sorted_insertionSort _ _
  rcases List.mem_cons.mp hq2 with rfl | hq3
  · exact le_refl _
  · exact List.rel_of_sorted_cons hsorted q hq3

theorem winnerOrder_length (groups : List (String × List ℚ)) (direction : String) :
    (winnerOrder groups direction).length = groups.length := by
  unfold winnerOrder winnerMeans
  split_ifs <;> rw [List.length_map, List.length_insertionSort, List.length_map]

theorem winnerTTest_spec (welch : WelchP) (groups : List (String × List ℚ))
    (best runner_up : String) (best_mean : ℚ) (rc : Option RelCounts) :
    ((winnerTTest welch groups best runner_up best_mean rc).winner = some best) ∧
    ((winnerTTest welch groups best runner_up best_mean rc).runner_up = some runner_up) ∧
    (∀ p, welch (lookupGroup groups best) (lookupGroup groups runner_up) = some p →
      ((winnerTTest welch groups best runner_up best_mean rc).is_significant
          = decide (p < ALPHA)) ∧
      (p < ALPHA →
        taggedWith "[SIG]" (winnerTTest welch groups best runner_up best_mean rc).statement) ∧
      (¬ p < ALPHA →
        taggedWith "[N.S.]" (winnerTTest welch groups best runner_up best_mean rc).statement)) ∧
    (welch (lookupGroup groups best) (lookupGroup groups runner_up) = none →
      ((winnerTTest welch groups best runner_up best_mean rc).is_significant = false) ∧
      taggedWith "[N.S.]" (winnerTTest welch groups best runner_up best_mean rc).statement) := by
  refine ⟨rfl, rfl, ?_, ?_⟩
  · intro p hp
    refine ⟨?_, ?_, ?_⟩
    · simp only [winnerTTest, hp]
    · intro hlt
      have hsig : decide (p < ALPHA) = true := by simp [hlt]
      simp only [winnerTTest, hp, hsig, if_true]
      exact taggedWith_appendCaveat _ _ _
    · intro hge
      have hsig : decide (p < ALPHA) = false := by simp [hge]
      simp only [winnerTTest, hp, hsig, if_false]
      exact taggedWith_appendCaveat _ _ _
  · intro hp
    constructor
    · simp [winnerTTest, hp]
    · simp only [winnerTTest, hp, if_false]
      exact taggedWith_appendCaveat _ _ _

theorem winner_reduces_to_ttest (welch : WelchP) (groups : List (String × List ℚ))
    (metric direction : String) (rc : Option RelCounts)
    (best runner_up : String) (rest : List String)
    (hne : groups ≠ [])
    (hwo : winnerOrder groups direction = best :: runner_up :: rest)
    (hb : ¬ (lookupGroup groups best).length < 2)
    (hr : ¬ (lookupGroup groups runner_up).length < 2) :
    determine_statistical_winner true welch groups metric direction rc
      = winnerTTest welch groups best runner_up
          (lookupMean (winnerMeans groups) best) rc := by
  obtain ⟨g0, gs, rfl⟩ := List.exists_cons_of_ne_nil hne
  simp only [determine_statistical_winner]
  rw [hwo]
  simp [hb, hr]

theorem winner_takes_sorted_head (welch : WelchP) (groups : List (String × List ℚ))
    (metric direction : String) (rc : Option RelCounts)
    (best runner_up : String) (rest : List String)
    (hne : groups ≠ [])
    (hwo : winnerOrder groups direction = best :: runner_up :: rest) :
    (determine_statistical_winner true welch groups metric direction rc).winner
      = some best := by
  obtain ⟨g0, gs, rfl⟩ := List.exists_cons_of_ne_nil hne
  simp only [determine_statistical_winner]
  rw [hwo]
  dsimp only
  split_ifs <;> rfl

/-- C6 (amended): with exactly one subject, the winner record is that
subject with no significance claim.  With two or more subjects the winner is
the head of the mean-sorted key order — a subject whose group mean is
minimal for lower-is-better and maximal otherwise — and, provided both the
winner group and the runner-up group hold at least two observations, the
Welch's t-test between winner and runner-up is run and the statement is
tagged `[SIG]` exactly when its p-value is below ALPHA = 0.05 and `[N.S.]`
otherwise (a NaN p-value counts as not significant); with fewer than two
observations in either group no test is run and the statement carries no
tag. -/
theorem winner_spec (welch : WelchP) (groups : List (String × List ℚ))
    (metric direction : String) (rc : Option RelCounts)
    (hlen : 2 ≤ groups.length) :
    (∀ (k : String) (v : List ℚ),
      determine_statistical_winner true welch [(k, v)] metric direction rc
        = { winner := some k, is_significant := false, p_value := none,
            runner_up := none, statement := k ++ " (only one framework)" }) ∧
    ∃ best runner_up rest,
      winnerOrder groups direction = best :: runner_up :: rest ∧
      ((determine_statistical_winner true welch groups metric direction rc).winner
          = some best) ∧
      (∃ g, g ∈ groups ∧ best = g.1 ∧
        (direction = "lower" → ∀ g2 ∈ groups, lMean g.2 ≤ lMean g2.2) ∧
        (direction ≠ "lower" → ∀ g2 ∈ groups, lMean g2.2 ≤ lMean g.2)) ∧
      (¬ (lookupGroup groups best).length < 2 →
        ¬ (lookupGroup groups runner_up).length < 2 →
        ((determine_statistical_winner true welch groups metric direction rc).runner_up
            = some runner_up) ∧
        (∀ p, welch (lookupGroup groups best) (lookupGroup groups runner_up) = some p →
          ((determine_statistical_winner true welch groups metric direction rc).is_significant
              = decide (p < ALPHA)) ∧
          (p < ALPHA → taggedWith "[SIG]"
            (determine_statistical_winner true welch groups metric direction rc).statement) ∧
          (¬ p < ALPHA → taggedWith "[N.S.]"
            (determine_statistical_winner true welch groups metric direction rc).statement)) ∧
        (welch (lookupGroup groups best) (lookupGroup groups runner_up) = none →
          ((determine_statistical_winner true welch groups metric direction rc).is_significant
              = false) ∧
          taggedWith "[N.S.]"
            (determine_statistical_winner true welch groups metric direction rc).statement)) := by
  have hne : groups ≠ [] := by
    intro hnil
    rw [hnil] at hlen
    simp at hlen
  constructor
  · intro k v
    have h1 : winnerOrder [(k, v)] direction = [k] := by
      unfold winnerOrder winnerMeans
      split_ifs <;> rfl
    simp only [determine_statistical_winner]
    rw [h1]
  · have hlen2 : 2 ≤ (winnerOrder groups direction).length := by
      rw [winnerOrder_length]
      exact hlen
    obtain ⟨best, t0, h0⟩ := List.exists_cons_of_ne_nil
      (show winnerOrder groups direction ≠ [] by
        intro hnil
        rw [hnil] at hlen2
        simp at hlen2)
    obtain ⟨runner_up, t1, h1⟩ := List.exists_cons_of_ne_nil
      (show t0 ≠ [] by
        intro hnil
        rw [hnil] at h0
        rw [h0] at hlen2
        simp at hlen2)
    rw [h1] at h0
    refine ⟨best, runner_up, t1, h0, winner_takes_sorted_head _ _ _ _ _ _ _ _ hne h0, ?_, ?_⟩
    · -- the winner has the extremal mean
      by_cases hdir : direction = "lower"
      · have hwo2 : ((List.insertionSort (fun (a b : String × ℚ) => a.2 ≤ b.2)
            (winnerMeans groups)).map Prod.fst) = best :: runner_up :: t1 := by
          rw [← h0]
          unfold winnerOrder
          rw [if_pos hdir]
        obtain ⟨p0, ps, hp0⟩ := List.exists_cons_of_ne_nil
          (show List.insertionSort (fun (a b : String × ℚ) => a.2 ≤ b.2)
              (winnerMeans groups) ≠ [] by
            intro hnil
            rw [hnil] at hwo2
            simp at hwo2)
        have hbest : p0.1 = best := by
          rw [hp0] at hwo2
          simp only [List.map_cons, List.cons.injEq] at hwo2
          exact hwo2.1
        have hp0mem : p0 ∈ winnerMeans groups := by
          have hmem : p0 ∈ List.insertionSort (fun (a b : String × ℚ) => a.2 ≤ b.2)
              (winnerMeans groups) := by
            rw [hp0]
            exact List.mem_cons_self _ _
          exact (List.perm_insertionSort _ _).mem_iff.mp hmem
        obtain ⟨g, hgmem, hgeq⟩ := List.mem_map.mp hp0mem
        refine ⟨g, hgmem, ?_, ?_, fun hcontra => absurd hdir hcontra⟩
        · rw [← hbest, ← hgeq]
        · intro _ g2 hg2
          have hmin := insertionSort_snd_head_min _ _ _ hp0 (g2.1, lMean g2.2)
            (List.mem_map.mpr ⟨g2, hg2, rfl⟩)
          have hq : lMean g.2 = p0.2 := by
            rw [← hgeq]
          rw [hq]
          exact hmin
      · have hwo2 : ((List.insertionSort (fun (a b : String × ℚ) => b.2 ≤ a.2)
            (winnerMeans groups)).map Prod.fst) = best :: runner_up :: t1 := by
          rw [← h0]
          unfold winnerOrder
          rw [if_neg hdir]
        obtain ⟨p0, ps, hp0⟩ := List.exists_cons_of_ne_nil
          (show List.insertionSort (fun (a b : String × ℚ) => b.2 ≤ a.2)
              (winnerMeans groups) ≠ [] by
            intro hnil
            rw [hnil] at hwo2
            simp at hwo2)
        have hbest : p0.1 = best := by
          rw [hp0] at hwo2
          simp only [List.map_cons, List.cons.injEq] at hwo2
          exact hwo2.1
        have hp0mem : p0 ∈ winnerMeans groups := by
          have hmem : p0 ∈ List.insertionSort (fun (a b : String × ℚ) => b.2 ≤ a.2)
              (winnerMeans groups) := by
            rw [hp0]
            exact List.mem_cons_self _ _
          exact (List.perm_insertionSort _ _).mem_iff.mp hmem
        obtain ⟨g, hgmem, hgeq⟩ := List.mem_map.mp hp0mem
        refine ⟨g, hgmem, ?_, fun hcontra => absurd hcontra hdir, ?_⟩
        · rw [← hbest, ← hgeq]
        · intro _ g2 hg2
          have hmax := insertionSort_snd_head_max _ _ _ hp0 (g2.1, lMean g2.2)
            (List.mem_map.mpr ⟨g2, hg2, rfl⟩)
          have hq : lMean g.2 = p0.2 := by
            rw [← hgeq]
          rw [hq]
          exact hmax
    · intro hb hr
      have heq := winner_reduces_to_ttest welch groups metric direction rc
        best runner_up t1 hne h0 hb hr
      rw [heq]
      obtain ⟨-, hru, hsome, hnone⟩ := winnerTTest_spec welch groups best runner_up
        (lookupMean (winnerMeans groups) best) rc
      exact ⟨hru, hsome, hnone⟩

/-- Counterexample for C6 as stated: two subjects with singleton groups
(means 10 and 50) and an oracle p-value 0.01 < 0.05.  The claim demands a
`[SIG]`-tagged statement, but no t-test is run and the statement carries no
tag at all. -/
theorem winner_counterexample :
    ((determine_statistical_winner true (fun _ _ => some (1/100))
        [("A", [10]), ("B", [50])] "response_time_ms" "lower" none).winner
      = some "A") ∧
    ((determine_statistical_winner true (fun _ _ => some (1/100))
        [("A", [10]), ("B", [50])] "response_time_ms" "lower" none).statement
      = "A (10) — not enough data for significance test") ∧
    (¬ taggedWith "[SIG]" (determine_statistical_winner true (fun _ _ => some (1/100))
        [("A", [10]), ("B", [50])] "response_time_ms" "lower" none).statement) ∧
    (¬ taggedWith "[N.S.]" (determine_statistical_winner true (fun _ _ => some (1/100))
        [("A", [10]), ("B", [50])] "response_time_ms" "lower" none).statement) ∧
    ((1/100 : ℚ) < ALPHA) := by
  have hm1 : lMean [(10 : ℚ)] = 10 := by norm_num [lMean]
  have hm2 : lMean [(50 : ℚ)] = 50 := by norm_num [lMean]
  have hmeans : winnerMeans [("A", [(10 : ℚ)]), ("B", [50])] = [("A", 10), ("B", 50)] := by
    simp [winnerMeans, hm1, hm2]
  have hwo : winnerOrder [("A", [(10 : ℚ)]), ("B", [50])] "lower" = ["A", "B"] := by
    unfold winnerOrder
    rw [if_pos rfl, hmeans]
    decide
  have hbm : lookupMean (winnerMeans [("A", [(10 : ℚ)]), ("B", [50])]) "A" = 10 := by
    rw [hmeans]
    decide
  have hstmt : (determine_statistical_winner true (fun _ _ => some (1/100))
      [("A", [(10 : ℚ)]), ("B", [50])] "response_time_ms" "lower" none).statement
      = "A (10) — not enough data for significance test" := by
    simp only [determine_statistical_winner]
    rw [hwo]
    dsimp only
    rw [if_pos (Or.inr (Or.inl (by decide)))]
    rw [hbm]
    decide
  refine ⟨?_, hstmt, ?_, ?_, by norm_num [ALPHA]⟩
  · exact winner_takes_sorted_head _ _ _ _ _ _ _ _ (by decide) hwo
  · intro h
    rw [hstmt] at h
    exact absurd (taggedWith_data h) (by decide)
  · intro h
    rw [hstmt] at h
    exact absurd (taggedWith_data h) (by decide)

/-- Witness for C6 (amended): groups of three observations with clearly
separated means and oracle p = 0.001 yield a `[SIG]`-tagged statement. -/
theorem winner_spec_witness :
    2 ≤ ([("A", [(10 : ℚ), 10, 10]), ("B", [50, 51, 49])] : List (String × List ℚ)).length ∧
    taggedWith "[SIG]"
      (determine_statistical_winner true (fun _ _ => some (1/1000))
        [("A", [(10 : ℚ), 10, 10]), ("B", [50, 51, 49])] "emissions_g" "lower"
        none).statement := by
  have hm1 : lMean [(10 : ℚ), 10, 10] = 10 := by norm_num [lMean]
  have hm2 : lMean [(50 : ℚ), 51, 49] = 50 := by norm_num [lMean]
  have hmeans : winnerMeans [("A", [(10 : ℚ), 10, 10]), ("B", [50, 51, 49])]
      = [("A", 10), ("B", 50)] := by
    simp [winnerMeans, hm1, hm2]
  have hwoc : winnerOrder [("A", [(10 : ℚ), 10, 10]), ("B", [50, 51, 49])] "lower"
      = ["A", "B"] := by
    unfold winnerOrder
    rw [if_pos rfl, hmeans]
    decide
  obtain ⟨-, best, runner, rest, hwo, hwin, -, hbranch⟩ :=
    winner_spec (fun _ _ => some (1/1000))
      [("A", [(10 : ℚ), 10, 10]), ("B", [50, 51, 49])] "emissions_g" "lower" none
      (by norm_num)
  rw [hwoc] at hwo
  simp only [List.cons.injEq] at hwo
  obtain ⟨ha, hb2, -⟩ := hwo
  subst ha
  subst hb2
  obtain ⟨-, htag, -⟩ := hbranch (by decide) (by decide)
  exact ⟨by norm_num, (htag (1/1000) rfl).2.1 (by norm_num [ALPHA])⟩

end Carbon
